import Mathlib

/-!
Verification of the ValtricAI consulting backend (Python) against its
natural-language specification.  Each Python function relevant to the claims
is shallowly embedded as an executable Lean definition, translated from the
source.  Machine floats are modelled by `ℚ` (every concrete value reached by
the theorems below is exactly representable and the IEEE-754 double results
coincide with the rational results after the 2-decimal rounding the code
performs); Python's `re` patterns, which in this code base are alternations
of string literals optionally separated by `.*`, are modelled by dedicated
substring / in-line-sequence matchers with Python's rule that `.` does not
match a newline.  All recursion is structural so that every definition
evaluates inside the kernel.
-/

namespace Valtric

/-! ## Python string primitives -/

/-- Python whitespace for `str.strip` / `str.split` (and `re`'s `\s`):
space, tab, newline, carriage return, vertical tab, form feed. -/
def pyWS (c : Char) : Bool :=
  c = ' ' || c = '\t' || c = '\n' || c = '\r' || c = '\x0b' || c = '\x0c'

/-- Python `str.lower()` (the code only feeds ASCII text through it). -/
def lowerS (s : String) : String :=
  ⟨s.data.map Char.toLower⟩

/-- Python `str.strip()`. -/
def pyStrip (s : String) : String :=
  ⟨(((s.data.dropWhile pyWS).reverse).dropWhile pyWS).reverse⟩

/-- Python `str.split()` with no argument: maximal whitespace-separated
words, as character lists. -/
def wordsAux : List Char → List Char → List (List Char)
  | [], acc => if acc = ([] : List Char) then [] else [acc.reverse]
  | c :: cs, acc =>
    if pyWS c then
      if acc = ([] : List Char) then wordsAux cs []
      else acc.reverse :: wordsAux cs []
    else wordsAux cs (c :: acc)

def pyWords (s : String) : List (List Char) := wordsAux s.data []

/-- Number of whitespace-separated words, Python `len(s.split())`. -/
def wordCount (s : String) : Nat := (pyWords s).length

/-- Substring test on character lists. -/
def isInfixL (needle : List Char) : List Char → Bool
  | [] => decide (needle = ([] : List Char))
  | c :: cs => needle.isPrefixOf (c :: cs) || isInfixL needle cs

/-- Python `needle in hay` on strings (substring containment). -/
def containsStr (hay needle : String) : Bool :=
  isInfixL needle.data hay.data

/-- Prefix test, Python `hay.startswith(p)` / anchored regex literal. -/
def startsWithS (hay p : String) : Bool :=
  p.data.isPrefixOf hay.data

/-! ## A matcher for the regex fragment used by the code

Every pattern in the code base is an alternation of branches of the form
`lit₁.*lit₂.*…` (possibly a single literal), either anchored at the start
of the string by `^` or searched anywhere by `re.search`.  Python's `.`
matches any character except `'\n'`, so an unanchored branch matches iff
some one line of the text contains the literals in order. -/

/-- Split a character list at every `'\n'` (the pieces the pattern's `.*`
may not cross). -/
def splitLines : List Char → List (List Char)
  | [] => [[]]
  | c :: cs =>
    if c = '\n' then [] :: splitLines cs
    else
      match splitLines cs with
      | [] => [[c]]
      | l :: ls => (c :: l) :: ls

/-- Suffix following the first occurrence of `lit` in `s`, if any. -/
def findAfterFirst (lit : List Char) : List Char → Option (List Char)
  | [] => if lit = ([] : List Char) then some [] else none
  | c :: cs =>
    if lit.isPrefixOf (c :: cs) then some ((c :: cs).drop lit.length)
    else findAfterFirst lit cs

/-- Do the literals occur, in order, inside a single (newline-free) line? -/
def seqInLine : List (List Char) → List Char → Bool
  | [], _ => true
  | lit :: rest, s =>
    match findAfterFirst lit s with
    | some tl => seqInLine rest tl
    | none => false

/-- `re.search` of `lit₁.*lit₂.*…` (unanchored). -/
def reSearchSeq (lits : List String) (s : String) : Bool :=
  (splitLines s.data).any (fun line => seqInLine (lits.map String.data) line)

/-- Match of `^lit₁.*lit₂.*…` (anchored at the very start of the string). -/
def startSeq (lits : List String) (s : String) : Bool :=
  match lits.map String.data with
  | [] => true
  | lit :: rest =>
    lit.isPrefixOf s.data &&
      seqInLine rest ((s.data.drop lit.length).takeWhile (fun c => c ≠ '\n'))

/-! ## `agent_logic/complexity_analyzer.py` -/

/-- ValtricAI intent classification levels (`IntentLevel`). -/
inductive IntentLevel where
  | L0 | L1 | L2 | L3 | DATA
deriving DecidableEq, Repr

/-- Result of `ComplexityAnalyzer.get_detailed_analysis` (the free-text
`reasoning` field, which no claim mentions, is omitted). -/
structure ComplexityAnalysis where
  score : ℚ
  level : IntentLevel
  keywords_found : List String
  requires_reasoning : Bool
deriving DecidableEq, Repr

/-- The `l0_patterns` check (`_check_patterns(message_lower, self.l0_patterns)`
is nonempty): each branch is anchored at the start of the message. -/
def l0Match (m : String) : Bool :=
  (["hi", "hello", "hey", "good morning", "good afternoon", "good evening"].any
      (fun p => startsWithS m p)) ||
  (startsWithS m "how are you" || startSeq ["what", "up"] m ||
      startSeq ["how", "going"] m) ||
  (["thanks", "thank you", "thx", "appreciate"].any (fun p => startsWithS m p)) ||
  (["yes", "no", "ok", "okay", "cool", "got it", "understood", "sure"].any
      (fun p => startsWithS m p)) ||
  (["bye", "goodbye", "see you", "talk later"].any (fun p => startsWithS m p)) ||
  (["sorry", "my bad", "oops"].any (fun p => startsWithS m p))

def l1_keywords : List String :=
  ["help", "advice", "guidance", "suggestions", "ideas",
   "what should i", "how can i", "need help with",
   "can you help", "looking for", "want to know"]

def l2_keywords : List String :=
  ["pricing", "revenue", "costs", "expenses", "budget", "forecast",
   "hiring", "recruitment", "team", "staff", "employees",
   "marketing", "sales", "customers", "clients", "leads",
   "operations", "processes", "workflow", "efficiency",
   "tools", "software", "systems", "technology", "crm"]

def l3_keywords : List String :=
  ["strategy", "strategic", "vision", "mission", "objectives", "goals",
   "roadmap", "planning", "long-term", "short-term",
   "swot", "porter", "mckinsey", "framework", "analysis", "assessment",
   "competitive analysis", "market analysis", "business model",
   "roi", "investment", "valuation", "financial", "business case",
   "profit", "margin", "cash flow", "funding", "capital",
   "acquisition", "merger", "partnership", "expansion", "scaling",
   "restructure", "optimization", "transformation", "pivot",
   "risk", "threat", "opportunity", "competitive", "advantage",
   "market position", "differentiation", "value proposition"]

def data_keywords : List String :=
  ["analyze", "report", "data", "spreadsheet", "csv", "excel",
   "document", "file", "attachment", "chart", "graph", "metrics",
   "kpi", "dashboard", "analytics", "trends", "insights"]

def complexity_boosters : List (List String) :=
  [["compare", "options"], ["evaluate", "alternatives"], ["what", "best"],
   ["should", "or", "should"], ["pros", "cons"], ["trade", "off"],
   ["multiple", "factors"], ["complex", "situation"], ["several", "issues"]]

def complex_question_patterns : List (List String) :=
  [["why", "and", "how"], ["what", "if", "then"], ["how", "would", "affect"],
   ["what", "impact", "on"], ["which", "better", "for"],
   ["when", "should", "vs"]]

/-- Python `[kw for kw in kws if kw in text]`. -/
def findKeywords (text : String) (kws : List String) : List String :=
  kws.filter (fun k => containsStr text k)

/-- The short-acknowledgment short-circuit condition of
`get_detailed_analysis`. -/
def shortAck (message : String) : Bool :=
  wordCount message ≤ 3 &&
    (["yes", "no", "ok", "thanks", "sure"].any
      (fun w => containsStr (lowerS message) w))

/-- `combined_text = f"{message_lower} {context_lower}".strip()`. -/
def combinedTextOf (message context : String) : String :=
  pyStrip ⟨(lowerS message).data ++ ' ' :: (lowerS context).data⟩

def l1FoundOf (message context : String) : List String :=
  findKeywords (combinedTextOf message context) l1_keywords

def l2FoundOf (message context : String) : List String :=
  findKeywords (combinedTextOf message context) l2_keywords

def l3FoundOf (message context : String) : List String :=
  findKeywords (combinedTextOf message context) l3_keywords

def dataFoundOf (message context : String) : List String :=
  findKeywords (combinedTextOf message context) data_keywords

def keywordsFoundOf (message context : String) : List String :=
  l1FoundOf message context ++ l2FoundOf message context ++
    l3FoundOf message context ++ dataFoundOf message context

/-- The additive `score` accumulated by `get_detailed_analysis` before the
final clamp, with the same summand order as the code. -/
def rawScore (message context : String) (historyLen : Nat) : ℚ :=
  (if dataFoundOf message context ≠ [] then 8/10 else 0) +
  (if l3FoundOf message context ≠ [] then 7/10 else 0) +
  (if l2FoundOf message context ≠ [] then 4/10 else 0) +
  (if l1FoundOf message context ≠ [] then 2/10 else 0) +
  (if wordCount message > 50 then 3/10
   else if wordCount message > 25 then 2/10 else 0) +
  (if message.data.count '?' > 1 then 2/10 else 0) +
  (if complexity_boosters.any
      (fun p => reSearchSeq p (combinedTextOf message context))
    then 3/10 else 0) +
  (if complex_question_patterns.any
      (fun p => reSearchSeq p (combinedTextOf message context))
    then 1/4 else 0) +
  (if historyLen > 3 then 1/10 else 0)

/-- `ComplexityAnalyzer.get_detailed_analysis` (conversation history enters
only through its length). -/
def get_detailed_analysis (message : String) (context : String)
    (historyLen : Nat) : ComplexityAnalysis :=
  if l0Match (lowerS message) then
    ⟨1/10, .L0, [], false⟩
  else if shortAck message then
    ⟨1/20, .L0, [], false⟩
  else
    let score := min 1 (rawScore message context historyLen)
    if score ≤ 15/100 then
      ⟨score, .L0, keywordsFoundOf message context, false⟩
    else if score ≤ 4/10 then
      ⟨score, .L1, keywordsFoundOf message context, false⟩
    else if score ≤ 65/100 then
      ⟨score, .L2, keywordsFoundOf message context, false⟩
    else if dataFoundOf message context ≠ [] then
      ⟨score, .DATA, keywordsFoundOf message context, true⟩
    else
      ⟨score, .L3, keywordsFoundOf message context, true⟩

/-- `ComplexityAnalyzer.analyze_complexity`. -/
def analyze_complexity (message : String) (context : String) : ℚ :=
  (get_detailed_analysis message context 0).score

/-! ## `agent_logic/model_router.py` -/

def reasoning_keywords : List String :=
  ["analyze", "strategy", "strategic", "framework", "swot", "porter",
   "mckinsey", "business case", "roi", "recommendations", "evaluate",
   "assess", "compare", "optimize", "improve", "plan", "planning", "budget",
   "financial", "investment", "risk", "threat", "opportunity", "competitive",
   "market analysis", "due diligence", "restructure", "merger", "acquisition",
   "valuation", "pricing strategy", "digital transformation",
   "process improvement", "change management"]

/-- The `simple_patterns` list of `_should_use_reasoning_model`, one Bool per
pattern, evaluated on the lowercased message. -/
def simplePatterns (m : String) : List Bool :=
  [ ["hi", "hello", "hey", "good morning", "good afternoon"].any
      (fun p => startsWithS m p),
    startsWithS m "how are you" || startSeq ["what", "up"] m ||
      startsWithS m "thanks" || startsWithS m "thank you",
    ["yes", "no", "ok", "okay", "cool", "got it", "understood"].any
      (fun p => startsWithS m p),
    containsStr m "can you help",
    reSearchSeq ["what", "do"] m,
    containsStr m "tell me about" ]

/-- `ModelRouter._should_use_reasoning_model`.  Returns `true` when the
reasoning model (o4-mini) is selected.  When no complexity score is supplied
the code computes one with the complexity analyzer. -/
def should_use_reasoning_model (message : String) (context : String)
    (complexity_score : Option ℚ) : Bool :=
  let score :=
    match complexity_score with
    | some s => s
    | none => analyze_complexity message context
  let messageLower := lowerS message
  if (simplePatterns messageLower).any id then
    false
  else
    let hasReasoningKeywords :=
      reasoning_keywords.any (fun k => containsStr messageLower k)
    decide (score > 6/10) || hasReasoningKeywords ||
      decide (wordCount message > 50) ||
      (containsStr message "?" && decide (wordCount message > 15))

/-! ## `agent_logic/data_generator.py` -/

/-- `DataType` enum. -/
inductive DataType where
  | TABLE | JSON | CHART | SWOT | FINANCIAL | COMPARISON | TIMELINE | TEXT
deriving DecidableEq, Repr

/-- Character class `[A-Za-z\s,]` of the `csv` pattern. -/
def csvClass1 (c : Char) : Bool :=
  (('A' ≤ c && c ≤ 'Z') || ('a' ≤ c && c ≤ 'z')) || pyWS c || c = ','

/-- Character class `[\w\s,.-]` of the `csv` pattern (`\w` restricted to its
ASCII fragment, which covers every text the theorems touch). -/
def csvClass2 (c : Char) : Bool :=
  (('A' ≤ c && c ≤ 'Z') || ('a' ≤ c && c ≤ 'z') || ('0' ≤ c && c ≤ '9')
    || c = '_') || pyWS c || c = ',' || c = '.' || c = '-'

/-- Backtracking continuation of the `csv` pattern
`^[A-Za-z\s,]+\n[\w\s,.-]+` after at least one class-1 character has been
consumed: either the next `'\n'` is the separator (then one class-2
character must follow) or the prefix continues. -/
def csvRest : List Char → Bool
  | [] => false
  | ['\n'] => false
  | '\n' :: c :: rest => csvClass2 c || csvRest (c :: rest)
  | c :: rest => csvClass1 c && csvRest rest

/-- `re.match` of the `csv` pattern against the whole text (anchored at
position 0; `re.MULTILINE` is irrelevant for a match at the start). -/
def csvMatch (s : List Char) : Bool :=
  match s with
  | [] => false
  | c :: rest => csvClass1 c && csvRest rest

/-- `re.match` of the `json` pattern `^\s*\{[\s\S]*\}\s*$` against the
stripped text: as the text is stripped this holds iff it starts with `'{'`
and ends with `'}'` (with at least those two characters). -/
def jsonFullMatch (stripped : String) : Bool :=
  match stripped.data with
  | [] => false
  | c :: rest =>
    c = '{' && (match rest.getLast? with | some d => d = '}' | none => false)

/-- `re.match` of the `table` pattern `\|.*\|.*\|` (anchored at position 0,
`.` not crossing a newline): the text starts with `'|'` and two more `'|'`
occur on the first line. -/
def tableAnchored (text : String) : Bool :=
  match text.data with
  | '|' :: rest => 2 ≤ ((rest.takeWhile (fun c => c ≠ '\n')).count '|')
  | _ => false

/-- `re.search` of `(strength|weakness|opportunity|threat)` with
`re.IGNORECASE`. -/
def swotKeywordSearch (textLower : String) : Bool :=
  ["strength", "weakness", "opportunity", "threat"].any
    (fun k => containsStr textLower k)

/-- `re.search` of `(revenue|profit|expense|year|quarter)` with
`re.IGNORECASE`. -/
def financialKeywordSearch (textLower : String) : Bool :=
  ["revenue", "profit", "expense", "year", "quarter"].any
    (fun k => containsStr textLower k)

/-- `DataGenerator.detect_data_type`. -/
def detect_data_type (text : String) : DataType :=
  let textLower := lowerS text
  if jsonFullMatch (pyStrip text) then .JSON
  else if csvMatch text.data then .TABLE
  else if tableAnchored text then .TABLE
  else if containsStr textLower "swot" && swotKeywordSearch textLower then .SWOT
  else if financialKeywordSearch textLower && text.data.any Char.isDigit then
    .FINANCIAL
  else .TEXT

/-! ### A model of `json.loads`

The fragment of JSON the theorems exercise: objects, arrays, double-quoted
strings without escape sequences or control characters, integers, `true`,
`false`, `null`, with JSON whitespace between tokens.  On this fragment the
parser agrees with Python's `json.loads`; outside it (string escapes,
fractional numbers) it returns `none`, which only ever makes the
`parse_json_data` model fail where the code could succeed — every theorem
below is conditioned on, or evaluated at, inputs inside the fragment. -/

inductive JValue where
  | jnull
  | jbool (b : Bool)
  | jnum (n : Int)
  | jstr (s : String)
  | jarr (xs : List JValue)
  | jobj (fields : List (String × JValue))

/-- JSON whitespace (RFC 8259): space, tab, newline, carriage return. -/
def jsonWS (c : Char) : Bool :=
  c = ' ' || c = '\t' || c = '\n' || c = '\r'

def skipWs (s : List Char) : List Char := s.dropWhile jsonWS

/-- Scan a JSON string body up to the closing quote; `none` on a backslash,
a control character or a missing quote (outside the modelled fragment). -/
def scanStr : List Char → Option (List Char × List Char)
  | [] => none
  | c :: cs =>
    if c = '"' then some ([], cs)
    else if c = '\\' || c.val < 32 then none
    else match scanStr cs with
      | some (body, rest) => some (c :: body, rest)
      | none => none

def digitVal (c : Char) : Nat := c.toNat - '0'.toNat

def scanNat (acc : Nat) : List Char → Nat × List Char
  | [] => (acc, [])
  | c :: cs =>
    if c.isDigit then scanNat (acc * 10 + digitVal c) cs
    else (acc, c :: cs)

mutual

def parseVal : Nat → List Char → Option (JValue × List Char)
  | 0, _ => none
  | fuel + 1, s =>
    match skipWs s with
    | [] => none
    | c :: cs =>
      if c = '{' then
        match skipWs cs with
        | '}' :: rest => some (.jobj [], rest)
        | other => parseMembers fuel other []
      else if c = '[' then
        match skipWs cs with
        | ']' :: rest => some (.jarr [], rest)
        | other => parseItems fuel other []
      else if c = '"' then
        match scanStr cs with
        | some (body, rest) => some (.jstr ⟨body⟩, rest)
        | none => none
      else if ['t'].isPrefixOf (c :: cs) && "true".data.isPrefixOf (c :: cs) then
        some (.jbool true, (c :: cs).drop 4)
      else if "false".data.isPrefixOf (c :: cs) then
        some (.jbool false, (c :: cs).drop 5)
      else if "null".data.isPrefixOf (c :: cs) then
        some (.jnull, (c :: cs).drop 4)
      else if c = '-' then
        match cs with
        | d :: _ =>
          if d.isDigit then
            let (n, rest) := scanNat 0 cs
            match rest with
            | '.' :: _ => none
            | 'e' :: _ => none
            | 'E' :: _ => none
            | _ => some (.jnum (-(n : Int)), rest)
          else none
        | [] => none
      else if c.isDigit then
        let (n, rest) := scanNat 0 (c :: cs)
        match rest with
        | '.' :: _ => none
        | 'e' :: _ => none
        | 'E' :: _ => none
        | _ => some (.jnum (n : Int), rest)
      else none

/-- Members of an object after `{`, positioned at a key. -/
def parseMembers : Nat → List Char → List (String × JValue) →
    Option (JValue × List Char)
  | 0, _, _ => none
  | fuel + 1, s, acc =>
    match skipWs s with
    | '"' :: cs =>
      match scanStr cs with
      | some (key, afterKey) =>
        match skipWs afterKey with
        | ':' :: afterColon =>
          match parseVal fuel afterColon with
          | some (v, afterVal) =>
            match skipWs afterVal with
            | ',' :: next => parseMembers fuel next (acc ++ [(⟨key⟩, v)])
            | '}' :: rest => some (.jobj (acc ++ [(⟨key⟩, v)]), rest)
            | _ => none
          | none => none
        | _ => none
      | none => none
    | _ => none

/-- Items of an array after `[`, positioned at a value. -/
def parseItems : Nat → List Char → List JValue → Option (JValue × List Char)
  | 0, _, _ => none
  | fuel + 1, s, acc =>
    match parseVal fuel s with
    | some (v, afterVal) =>
      match skipWs afterVal with
      | ',' :: next => parseItems fuel next (acc ++ [v])
      | ']' :: rest => some (.jarr (acc ++ [v]), rest)
      | _ => none
    | none => none

end

/-- `json.loads`: parse one value and require only whitespace to follow. -/
def jsonLoads (s : String) : Option JValue :=
  match parseVal (s.data.length + 1) s.data with
  | some (v, rest) => if skipWs rest = ([] : List Char) then some v else none
  | none => none

/-! ### `DataGenerator.parse_json_data` and `process_ai_response` -/

/-- Python `str.split('\n')` as strings. -/
def splitLinesS (s : String) : List String :=
  (splitLines s.data).map (fun l => (⟨l⟩ : String))

/-- `line.count('{') - line.count('}')`. -/
def braceDelta (line : String) : Int :=
  (line.data.count '{' : Int) - (line.data.count '}' : Int)

/-- The line loop of `parse_json_data` that extracts a brace-balanced block:
start collecting at the first line containing `'{'`, stop once the running
brace count returns to zero (checked only from the second collected line
on, as in the code). -/
def extractLoop : List String → Bool → List String → Int → List String
  | [], _, acc, _ => acc
  | line :: rest, inJson, acc, bc =>
    if containsStr line "\x7b" && !inJson then
      let bc0 := braceDelta line
      extractLoop rest true [line] bc0
    else if inJson then
      let acc2 := acc ++ [line]
      let bc2 := bc + braceDelta line
      if bc2 = 0 then acc2 else extractLoop rest true acc2 bc2
    else extractLoop rest false acc bc

/-- Join lines with `'\n'`, Python `'\n'.join(lines)`. -/
def joinNL : List String → String
  | [] => ""
  | [l] => l
  | l :: ls => ⟨l.data ++ '\n' :: (joinNL ls).data⟩

def four_swot_keys : List String :=
  ["strengths", "weaknesses", "opportunities", "threats"]

/-- Python `key in data` for the parsed JSON value: key membership for an
object, element equality for an array, substring for a string; `none`
models the `TypeError` raised on other types (caught by the code, which
then returns `None`). -/
def allFourKeysIn (v : JValue) : Option Bool :=
  match v with
  | .jobj fields =>
    some (four_swot_keys.all (fun k => fields.any (fun f => f.1 = k)))
  | .jarr xs =>
    some (four_swot_keys.all (fun k =>
      xs.any (fun x => match x with | .jstr s => s = k | _ => false)))
  | .jstr s => some (four_swot_keys.all (fun k => containsStr s k))
  | _ => none

/-- The dictionary `parse_json_data` returns (its constant
`'format': 'json'` entry is implied by the constructor). -/
structure ParsedJson where
  ptype : DataType
  pdata : JValue

/-- The `json_str` selection of `parse_json_data`: the anchored-pattern
match on the stripped text, falling back to the brace-balanced line
extraction. -/
def extractJsonStr (text : String) : Option String :=
  if jsonFullMatch (pyStrip text) then some (pyStrip text)
  else
    match extractLoop (splitLinesS text) false [] 0 with
    | [] => none
    | acc => some (joinNL acc)

/-- The tail of `parse_json_data`: tag the parsed value `SWOT` when all
four keys are present, `JSON` otherwise (`none` models the `TypeError`
path). -/
def classifyParsed (v : JValue) : Option ParsedJson :=
  match allFourKeysIn v with
  | none => none
  | some true => some ⟨.SWOT, v⟩
  | some false => some ⟨.JSON, v⟩

/-- `DataGenerator.parse_json_data`. -/
def parse_json_data (text : String) : Option ParsedJson :=
  match extractJsonStr text with
  | none => none
  | some js =>
    match jsonLoads js with
    | none => none
    | some v => classifyParsed v

/-- Structured output attached by `process_ai_response`.  The
`TABLE`/`FINANCIAL` branch calls `parse_csv_data` / `parse_markdown_table`;
no claim inspects those results, so that branch's payload is represented by
the bare `tableBranch` marker. -/
inductive StructuredData where
  | jsonParsed (p : ParsedJson)
  | tableBranch

/-- `DataGenerator.process_ai_response`, restricted to the fields the claims
mention (`data_type`, `structured_data`). -/
structure ProcessResult where
  data_type : DataType
  structured_data : Option StructuredData

/-- `DataGenerator.process_ai_response`. -/
def process_ai_response (text : String) : ProcessResult :=
  let dt := detect_data_type text
  if dt = .JSON || dt = .SWOT then
    match parse_json_data text with
    | some p => ⟨dt, some (.jsonParsed p)⟩
    | none => ⟨dt, none⟩
  else if dt = .TABLE || dt = .FINANCIAL then
    ⟨dt, some .tableBranch⟩
  else ⟨dt, none⟩

/-- Does a `process_ai_response` result carry successfully parsed structured
data tagged as SWOT? -/
def taggedSwot (r : ProcessResult) : Bool :=
  match r.structured_data with
  | some (.jsonParsed p) => p.ptype = DataType.SWOT
  | _ => false

/-! ### `DataGenerator.generate_financial_projection` -/

/-- Round half to even, the rounding of Python's `round` (the concrete
values the theorems reach are exact, so the binary-float subtleties of
`round` on doubles do not arise). -/
def roundHalfEven (x : ℚ) : ℤ :=
  let f := ⌊x⌋
  let r := x - f
  if r < 1/2 then f
  else if 1/2 < r then f + 1
  else if f % 2 = 0 then f else f + 1

/-- Python `round(x, 2)`. -/
def round2 (x : ℚ) : ℚ := (roundHalfEven (x * 100) : ℚ) / 100

/-- One row of the projection table. -/
structure FinRow where
  year : String
  revenue : ℚ
  expenses : ℚ
  profit : ℚ
  ebitda : ℚ
  growth : String
deriving DecidableEq, Repr

/-- The `Growth %` label `f'{growth_rate * 100:.0f}%'`. -/
def growthLabel (growthRate : ℚ) : String :=
  toString (roundHalfEven (growthRate * 100)) ++ "%"

/-- Loop body of `generate_financial_projection`: `year` counts up from 1,
`n` rows remain, `revenue` is the running pre-rounding revenue. -/
def finRowsAux (growthRate : ℚ) : ℚ → Nat → Nat → List FinRow
  | _, _, 0 => []
  | revenue, year, n + 1 =>
    let expenses := revenue * (7/10)
    let profit := revenue - expenses
    let ebitda := profit * (12/10)
    { year := "Year " ++ toString year
      revenue := round2 revenue
      expenses := round2 expenses
      profit := round2 profit
      ebitda := round2 ebitda
      growth := if year > 1 then growthLabel growthRate else "-" } ::
      finRowsAux growthRate (revenue * (1 + growthRate)) (year + 1) n

/-- `DataGenerator.generate_financial_projection` (the `rows` list; the
surrounding dict's `headers`/`row_count`/`metadata` are determined by it). -/
def generate_financial_projection (startRevenue growthRate : ℚ)
    (years : Nat) : List FinRow :=
  finRowsAux growthRate startRevenue 1 years

/-! ## `services/redis_cache.py` -/

/-- Python `str.replace(pat, rep)` for a nonempty pattern: replace all
non-overlapping occurrences left to right (the `fuel` argument only drives
the structural recursion; one character is consumed per step, so
`s.length` suffices). -/
def replFuel (pat rep : List Char) : Nat → List Char → List Char
  | 0, l => l
  | _ + 1, [] => []
  | fuel + 1, c :: cs =>
    if pat ≠ ([] : List Char) && pat.isPrefixOf (c :: cs) then
      rep ++ replFuel pat rep fuel ((c :: cs).drop pat.length)
    else c :: replFuel pat rep fuel cs

def replaceAll (s pat rep : String) : String :=
  ⟨replFuel pat.data rep.data s.data.length s.data⟩

/-- Python `' '.join(words)`. -/
def joinSpace : List (List Char) → String
  | [] => ""
  | [w] => ⟨w⟩
  | w :: ws => ⟨w ++ ' ' :: (joinSpace ws).data⟩

def punctuation_map : List String := ["?", "!", ".", ",", ":", ";"]

def phrase_variations : List (String × String) :=
  [("swot analysis", "swot analysis"),
   ("swot analyse", "swot analysis"),
   ("swot framework", "swot analysis"),
   ("porter five forces", "porter five forces"),
   ("porters five forces", "porter five forces"),
   ("porter\x27s five forces", "porter five forces"),
   ("mckinsey 7s", "mckinsey 7s"),
   ("mckinsey seven s", "mckinsey 7s"),
   ("mckinsey framework", "mckinsey 7s")]

/-- `RedisCacheService._normalize_query`. -/
def normalize_query (query : String) : String :=
  let n := pyStrip (lowerS query)
  let n := joinSpace (pyWords n)
  let n := punctuation_map.foldl (fun acc p => replaceAll acc p "") n
  let n := phrase_variations.foldl (fun acc pv => replaceAll acc pv.1 pv.2) n
  n

/-- `CacheType` enum. -/
inductive CacheType where
  | FRAMEWORK_QUERY | GENERAL_QUERY | USER_SPECIFIC | RAG_CONTEXT
deriving DecidableEq, Repr

/-- The `prefix` field of `CACHE_CONFIGS[cache_type]`. -/
def cachePfx : CacheType → String
  | .FRAMEWORK_QUERY => "fw:"
  | .GENERAL_QUERY => "gq:"
  | .USER_SPECIFIC => "us:"
  | .RAG_CONTEXT => "rag:"

/-- Python truthiness of an optional string (`None` and `""` are falsy). -/
def truthyOpt : Option String → Option String
  | some s => if s = "" then none else some s
  | none => none

/-- Python `'|'.join(components)`. -/
def joinBar : List String → String
  | [] => ""
  | [w] => w
  | w :: ws => ⟨w.data ++ '|' :: (joinBar ws).data⟩

/-- `RedisCacheService._generate_cache_key`.  The MD5 hex digest is the
`digest` parameter: the claims compare keys for equality, which only
depends on the digested payload, so any digest function witnesses them —
in particular `hashlib.md5(...).hexdigest()`. -/
def generate_cache_key (digest : String → String) (query : String)
    (cache_type : CacheType) (persona : String) (framework : Option String)
    (user_id : Option String) : String :=
  let normalizedQuery := normalize_query query
  let keyComponents := [normalizedQuery, persona]
  let keyComponents :=
    match truthyOpt framework with
    | some f => keyComponents ++ [f]
    | none => keyComponents
  let keyComponents :=
    match truthyOpt user_id with
    | some u =>
      if cache_type = .USER_SPECIFIC then keyComponents ++ [u]
      else keyComponents
    | none => keyComponents
  cachePfx cache_type ++ digest (joinBar keyComponents)

/-! ## `rag_system/supabase_client.py`: reciprocal rank fusion -/

/-- A search-result dict as far as `_reciprocal_rank_fusion` inspects it. -/
structure RagItem where
  id : Option String
  chunk_id : Option String
  text : String
  source_type : Option String
deriving DecidableEq, Repr

/-- `item.get('id') or item.get('chunk_id') or str(hash(item.get('text', '')))`
paired with `item.get('source_type', 'unknown')`.  Python's randomized
`str(hash(...))` fallback is the `h` parameter; the theorems' distinctness
hypotheses are stated over whichever keys result. -/
def itemKey (h : String → String) (it : RagItem) : String × String :=
  ((truthyOpt it.id).getD ((truthyOpt it.chunk_id).getD (h it.text)),
   it.source_type.getD "unknown")

/-- One entry of the `scores` dict: insertion-ordered key, the first item
seen for the key, and the accumulated RRF score. -/
structure ScoreEntry where
  key : String × String
  item : RagItem
  score : ℚ
deriving DecidableEq

/-- `scores[key]['score'] += rrf_score`, inserting
`{'item': item, 'score': 0}` first when the key is new (Python dicts
preserve insertion order). -/
def addScore (acc : List ScoreEntry) (k : String × String) (it : RagItem)
    (sc : ℚ) : List ScoreEntry :=
  if acc.any (fun e => e.key = k) then
    acc.map (fun e => if e.key = k then { e with score := e.score + sc } else e)
  else acc ++ [⟨k, it, sc⟩]

/-- The accumulation loops of `_reciprocal_rank_fusion`:
`for rank_list in ranked_lists: for rank, item in enumerate(rank_list)`. -/
def buildScores (h : String → String) (rankedLists : List (List RagItem))
    (c : Nat) : List ScoreEntry :=
  rankedLists.foldl
    (fun acc l =>
      l.enum.foldl
        (fun acc2 p => addScore acc2 (itemKey h p.2) p.2 (1 / (p.1 + c : ℚ)))
        acc)
    []

/-- Comparison used by `sorted(..., key=lambda x: x['score'], reverse=True)`:
`a` may precede `b` iff `a`'s score is not below `b`'s.  Python's sort is
stable and `reverse=True` keeps ties in insertion order, which is exactly
`List.insertionSort` of this relation. -/
def rrfRel (a b : ScoreEntry) : Prop := b.score ≤ a.score

instance : DecidableRel rrfRel :=
  fun a b => inferInstanceAs (Decidable (b.score ≤ a.score))

instance : IsTotal ScoreEntry rrfRel := ⟨fun a b => le_total b.score a.score⟩

instance : IsTrans ScoreEntry rrfRel :=
  ⟨fun _ _ _ hab hbc => le_trans hbc hab⟩

/-- `SupabaseClientManager._reciprocal_rank_fusion`. -/
def reciprocal_rank_fusion (h : String → String)
    (rankedLists : List (List RagItem)) (k : Nat) (c : Nat := 60) :
    List RagItem :=
  ((List.insertionSort rrfRel (buildScores h rankedLists c)).take k).map
    (fun e => e.item)

/-! ## `api/middleware/rate_limiting.py` -/

def excluded_paths : List String :=
  ["/", "/health", "/docs", "/redoc", "/api/v1/health", "/api/v1/metrics"]

/-- Python `int()` on a rational: truncation toward zero. -/
def pyInt (x : ℚ) : ℤ := if 0 ≤ x then ⌊x⌋ else -⌊-x⌋

/-- Python `min(list)` (the code only calls it on nonempty lists or guards
with a ternary). -/
def listMinQ : List ℚ → Option ℚ
  | [] => none
  | x :: xs => some (xs.foldl min x)

/-- Result of one `RateLimitingMiddleware.dispatch` call, with the
rate-limit header values it attaches. -/
inductive RateLimitOutcome where
  | exempt
  | forwarded (limitHdr remainingHdr resetHdr : String)
  | limited (retry_after : ℤ) (limitHdr remainingHdr resetHdr retryAfterHdr : String)
deriving DecidableEq, Repr

/-- `RateLimitingMiddleware.dispatch` for one client IP: the state is that
IP's entry of `self.requests`, `now` is `time.time()`.  Returns the outcome
together with the new recorded-timestamp list. -/
def dispatch (requests_per_minute : Nat) (recorded : List ℚ) (now : ℚ)
    (path : String) : RateLimitOutcome × List ℚ :=
  if excluded_paths.contains path then (.exempt, recorded)
  else
    let pruned := recorded.filter (fun t => now - t < 60)
    if requests_per_minute ≤ pruned.length then
      let oldest := (listMinQ pruned).getD now
      let retryAfter := max 1 (pyInt (60 - (now - oldest)))
      (.limited retryAfter (toString requests_per_minute) "0"
        (toString (pyInt (now + (retryAfter : ℚ)))) (toString retryAfter),
       pruned)
    else
      let newRecorded := pruned ++ [now]
      let remaining := max 0 ((requests_per_minute : ℤ) - newRecorded.length)
      let oldest := (listMinQ newRecorded).getD now
      (.forwarded (toString requests_per_minute) (toString remaining)
        (toString (pyInt (oldest + 60))),
       newRecorded)

/-! ## `agent_logic/conversation_manager.py` -/

/-- `SessionStatus` enum (`models/schemas.py`). -/
inductive SessionStatus where
  | active | paused | completed | archived
deriving DecidableEq, Repr

/-- `ConversationSession` (timestamps as rationals; the free-form
`metadata` dict, which no claim mentions, is omitted). -/
structure ConvSession where
  session_id : String
  user_id : String
  project_id : String
  title : String
  persona : String
  framework : Option String
  status : SessionStatus
  created_at : ℚ
  last_activity : ℚ
  message_count : Nat
deriving DecidableEq, Repr

/-- A row of the `chat_messages` table as far as the claims see it (the
random UUID id and the timestamp string are omitted). -/
structure StoredMessage where
  msession_id : String
  role : String
  content : String
deriving DecidableEq, Repr

/-- Manager + database state: the in-process `active_sessions` cache and
the Supabase `chat_sessions` / `chat_messages` tables, as insertion-ordered
association lists. -/
structure MgrState where
  active_sessions : List (String × ConvSession)
  db_sessions : List (String × ConvSession)
  db_messages : List StoredMessage
deriving DecidableEq, Repr

/-- Whether each Supabase write reports data back (`bool(result.data)`): a
`false` models the failure the helpers swallow — they log and return
`False` instead of raising. -/
structure DbEnv where
  storeMessagesOk : Bool
  updateOk : Bool
  insertOk : Bool
deriving DecidableEq, Repr

def lookupA (l : List (String × ConvSession)) (k : String) :
    Option ConvSession :=
  (l.find? (fun p => p.1 = k)).map (fun p => p.2)

/-- `self.active_sessions[session_id] = session` (dict assignment). -/
def setA (l : List (String × ConvSession)) (k : String) (v : ConvSession) :
    List (String × ConvSession) :=
  if l.any (fun p => p.1 = k) then
    l.map (fun p => if p.1 = k then (k, v) else p)
  else l ++ [(k, v)]

/-- SQL `UPDATE ... WHERE id = k`: touches only an existing row. -/
def updateRow (l : List (String × ConvSession)) (k : String)
    (v : ConvSession) : List (String × ConvSession) :=
  l.map (fun p => if p.1 = k then (k, v) else p)

/-- Python `str.title()` for ASCII text. -/
def titleAux : List Char → Bool → List Char
  | [], _ => []
  | c :: cs, prevAlpha =>
    (if c.isAlpha && !prevAlpha then c.toUpper
     else if c.isAlpha then c.toLower else c) :: titleAux cs c.isAlpha

def pyTitle (s : String) : String := ⟨titleAux s.data false⟩

/-- `ConversationManager._generate_session_title`. -/
def generate_session_title (persona : String) (framework : Option String) :
    String :=
  let personaNames : List (String × String) :=
    [("associate", "Associate Consultation"),
     ("partner", "Partner Consultation"),
     ("senior_partner", "Senior Partner Consultation")]
  let frameworkNames : List (String × String) :=
    [("swot", "SWOT Analysis"),
     ("porters", "Porter\x27s 5 Forces"),
     ("mckinsey", "McKinsey 7S")]
  let baseTitle :=
    ((personaNames.find? (fun p => p.1 = persona)).map (fun p => p.2)).getD
      "Business Consultation"
  match truthyOpt framework with
  | some fw =>
    let fwName :=
      ((frameworkNames.find? (fun p => p.1 = fw)).map (fun p => p.2)).getD
        (pyTitle fw)
    baseTitle ++ " - " ++ fwName
  | none => baseTitle

/-- `ConversationManager.get_session`: cache first, then the database, with
no ownership check. -/
def get_session (st : MgrState) (session_id : String) : Option ConvSession :=
  match lookupA st.active_sessions session_id with
  | some s => some s
  | none => lookupA st.db_sessions session_id

/-- `ConversationManager.get_or_create_session`.  `Except.error` models the
`PermissionError` the code raises. -/
def get_or_create_session (st : MgrState) (env : DbEnv)
    (session_id user_id project_id persona : String)
    (framework : Option String) (now : ℚ) :
    Except String (ConvSession × MgrState) :=
  match lookupA st.active_sessions session_id with
  | some session =>
    let s2 := { session with last_activity := now }
    .ok (s2, { st with active_sessions := setA st.active_sessions session_id s2 })
  | none =>
    match lookupA st.db_sessions session_id with
    | some session =>
      if session.user_id ≠ user_id then
        .error ("User " ++ user_id ++ " cannot access session " ++ session_id)
      else
        let s2 := { session with last_activity := now }
        let st2 :=
          { st with active_sessions := setA st.active_sessions session_id s2 }
        let st3 :=
          if env.updateOk then
            { st2 with db_sessions := updateRow st2.db_sessions session_id s2 }
          else st2
        .ok (s2, st3)
    | none =>
      let title := generate_session_title persona framework
      let s : ConvSession :=
        ⟨session_id, user_id, project_id, title, persona, framework,
         .active, now, now, 0⟩
      let st2 :=
        if env.insertOk then
          { st with db_sessions := st.db_sessions ++ [(session_id, s)] }
        else st
      .ok (s, { st2 with active_sessions := setA st2.active_sessions session_id s })

/-- `ConversationManager.delete_session`. -/
def delete_session (st : MgrState) (session_id user_id : String) :
    Bool × MgrState :=
  match get_session st session_id with
  | none => (false, st)
  | some session =>
    if session.user_id ≠ user_id then (false, st)
    else
      let hadRow := st.db_sessions.any (fun p => p.1 = session_id)
      let st2 :=
        { st with
          db_messages :=
            st.db_messages.filter (fun m => m.msession_id ≠ session_id),
          db_sessions := st.db_sessions.filter (fun p => p.1 ≠ session_id) }
      let st3 :=
        { st2 with
          active_sessions :=
            st2.active_sessions.filter (fun p => p.1 ≠ session_id) }
      (hadRow, st3)

/-- `ConversationManager.add_message`: the boolean results of
`_store_messages` and `_update_session_in_db` are ignored by the code, so
the function returns `True` whenever the session was found. -/
def add_message (st : MgrState) (env : DbEnv)
    (session_id user_message ai_response : String) (now : ℚ) :
    Bool × MgrState :=
  match get_session st session_id with
  | none => (false, st)
  | some session =>
    let st1 :=
      if env.storeMessagesOk then
        { st with
          db_messages := st.db_messages ++
            [⟨session_id, "user", user_message⟩,
             ⟨session_id, "assistant", ai_response⟩] }
      else st
    let s2 :=
      { session with
        message_count := session.message_count + 2, last_activity := now }
    let st2 :=
      if env.updateOk then
        { st1 with db_sessions := updateRow st1.db_sessions session_id s2 }
      else st1
    let st3 :=
      { st2 with active_sessions := setA st2.active_sessions session_id s2 }
    (true, st3)

/-! ## Claim theorems -/

/-- A session owned by user `u1`, present in the in-process cache. -/
def c1Session : ConvSession :=
  ⟨"s1", "u1", "p1", "Partner Consultation", "partner", none, .active, 0, 0, 0⟩

def c1State : MgrState := ⟨[("s1", c1Session)], [], []⟩

/-- C1: the session-ownership invariant fails on the cache-hit path of
`get_or_create_session`: with `u1`'s session `s1` sitting in
`active_sessions`, a call made with user `u2`'s identity returns `u1`'s
session (and refreshes its `last_activity`) instead of raising
`PermissionError` — the ownership check only guards the
loaded-from-database path. -/
theorem C1_session_ownership_cache_bypass :
    ∃ s st2,
      get_or_create_session c1State ⟨true, true, true⟩ "s1" "u2" "p1"
          "partner" none 1 = .ok (s, st2) ∧
      s.user_id = "u1" ∧ s.session_id = "s1" ∧ ("u2" : String) ≠ "u1" := by
  exact ⟨_, _, rfl, rfl, rfl, by decide⟩

/-- C2: `_should_use_reasoning_model` returns `false` whenever a
simple/casual pattern matches, regardless of the supplied complexity score;
otherwise it returns `true` iff the score exceeds 0.6, a reasoning keyword
occurs, the whitespace word count exceeds 50, or the message contains `?`
with word count above 15. -/
theorem C2_model_selection (message context : String) (s : ℚ) :
    ((simplePatterns (lowerS message)).any id = true →
      should_use_reasoning_model message context (some s) = false) ∧
    ((simplePatterns (lowerS message)).any id = false →
      (should_use_reasoning_model message context (some s) = true ↔
        (6/10 < s ∨
         reasoning_keywords.any
             (fun k => containsStr (lowerS message) k) = true ∨
         50 < wordCount message ∨
         (containsStr message "?" = true ∧ 15 < wordCount message)))) := by
  unfold should_use_reasoning_model
  constructor
  · intro h
    simp [h]
  · intro h
    simp only [h, Bool.false_eq_true, if_false, Bool.or_eq_true,
      decide_eq_true_eq, Bool.and_eq_true]
    tauto

/-- C2 witness: "can you help" hits a simple pattern, so the fast model is
used even with the maximal score; "please assess our market position" hits
no simple pattern and contains the reasoning keyword "assess", so the
reasoning model is used even with score 0. -/
theorem C2_model_selection_witness :
    should_use_reasoning_model "can you help" "" (some 1) = false ∧
    should_use_reasoning_model "please assess our market position" ""
      (some 0) = true :=
  ⟨(C2_model_selection "can you help" "" 1).1 (by decide),
   ((C2_model_selection "please assess our market position" "" 0).2
       (by decide)).mpr (Or.inr (Or.inl (by decide)))⟩

/-- C4 counterexample: "see |a| and |b|" matches neither the JSON-object
pattern nor the CSV pattern and has a line with two `'|'` characters, yet
`detect_data_type` returns `TEXT`, not `TABLE` — the `table` pattern
`\|.*\|.*\|` is applied with the anchored `re.match` and needs three
pipes on the first line. -/
theorem C4_counterexample :
    jsonFullMatch (pyStrip "see |a| and |b|") = false ∧
    csvMatch "see |a| and |b|".data = false ∧
    (splitLines "see |a| and |b|".data).any
      (fun l => decide (2 ≤ l.count '|')) = true ∧
    detect_data_type "see |a| and |b|" = DataType.TEXT := by
  exact ⟨by decide, by decide, by decide, by decide⟩

/-- C4 amended: for texts matching neither the JSON-object pattern nor the
CSV pattern, `detect_data_type` returns `TABLE` iff the text starts with
`'|'` and at least two further `'|'` occur on its first line (the anchored
`\|.*\|.*\|` match). -/
theorem C4_pipe_table_amended (text : String)
    (hjson : jsonFullMatch (pyStrip text) = false)
    (hcsv : csvMatch text.data = false) :
    detect_data_type text = DataType.TABLE ↔ tableAnchored text = true := by
  unfold detect_data_type
  simp only [hjson, hcsv, if_false]
  by_cases ht : tableAnchored text = true
  · simp [ht]
  · simp only [Bool.not_eq_true] at ht
    simp only [ht, Bool.false_eq_true, if_false]
    constructor
    · split_ifs <;> simp
    · intro h
      exact h.elim

/-- C4 witness: "|a|b|" is anchored-pipe shaped and is classified `TABLE`. -/
theorem C4_pipe_table_witness :
    detect_data_type "|a|b|" = DataType.TABLE :=
  (C4_pipe_table_amended "|a|b|" (by decide) (by decide)).mpr (by decide)

/-- C6: the three queries normalize to the same string, hence produce the
same cache key for every digest function (in particular MD5), cache type,
persona, framework and user id. -/
theorem C6_cache_normalization (digest : String → String) (ct : CacheType)
    (persona : String) (framework user_id : Option String) :
    normalize_query "SWOT Analysis?" = "swot analysis" ∧
    normalize_query "swot analyse" = "swot analysis" ∧
    normalize_query "SWOT framework!!" = "swot analysis" ∧
    generate_cache_key digest "SWOT Analysis?" ct persona framework user_id =
      generate_cache_key digest "swot analyse" ct persona framework user_id ∧
    generate_cache_key digest "SWOT framework!!" ct persona framework user_id =
      generate_cache_key digest "swot analyse" ct persona framework user_id := by
  have h1 : normalize_query "SWOT Analysis?" = "swot analysis" := by decide
  have h2 : normalize_query "swot analyse" = "swot analysis" := by decide
  have h3 : normalize_query "SWOT framework!!" = "swot analysis" := by decide
  refine ⟨h1, h2, h3, ?_, ?_⟩ <;>
    simp only [generate_cache_key, h1, h2, h3]

/-- Key-lookup behaviour of the dict-assignment model: after
`setA l k v`, looking up `k` yields `v`. -/
theorem find?_update (l : List (String × ConvSession)) (k : String)
    (v : ConvSession) :
    (l.map (fun p => if p.1 = k then (k, v) else p)).find?
        (fun p => p.1 = k) =
      if l.any (fun p => p.1 = k) then some (k, v) else none := by
  induction l with
  | nil => simp
  | cons a t ih =>
    simp only [List.map_cons, List.find?_cons, List.any_cons]
    by_cases h : a.1 = k
    · simp [h, ih]
    · have hb : decide (a.1 = k) = false := decide_eq_false h
      rw [if_neg h]
      simp only [hb, Bool.false_or]
      exact ih

theorem lookupA_setA (l : List (String × ConvSession)) (k : String)
    (v : ConvSession) : lookupA (setA l k v) k = some v := by
  unfold setA
  by_cases h : l.any (fun p => p.1 = k) = true
  · rw [if_pos h]
    unfold lookupA
    rw [find?_update, if_pos h]
    rfl
  · rw [if_neg h]
    unfold lookupA
    rw [List.find?_append]
    have hnone : l.find? (fun p => decide (p.1 = k)) = none := by
      rw [List.find?_eq_none]
      intro x hx
      simp only [decide_eq_true_eq]
      intro hc
      exact h (List.any_eq_true.mpr ⟨x, hx, by simp [hc]⟩)
    rw [hnone]
    simp [List.find?_cons]

/-- C10: for an existing session, `add_message` returns `True` and bumps
the cached session's message count by 2 whatever the two Supabase write
results are (the helpers swallow their failures and `add_message` ignores
their boolean results); it returns `False` exactly when the session cannot
be loaded. -/
theorem C10_add_message_swallows_failures (st : MgrState) (env : DbEnv)
    (sid um ar : String) (now : ℚ) :
    (∀ s, get_session st sid = some s →
      (add_message st env sid um ar now).1 = true ∧
      lookupA (add_message st env sid um ar now).2.active_sessions sid =
        some { s with message_count := s.message_count + 2,
                      last_activity := now }) ∧
    (get_session st sid = none →
      add_message st env sid um ar now = (false, st)) := by
  constructor
  · intro s hs
    unfold add_message
    rw [hs]
    refine ⟨rfl, ?_⟩
    rcases env with ⟨sm, up, ins⟩
    cases sm <;> cases up <;>
      simp [lookupA_setA]
  · intro h
    unfold add_message
    rw [h]

/-- A session present only in the database (not cached). -/
def c10Session : ConvSession :=
  ⟨"s9", "u9", "p9", "T", "partner", none, .active, 0, 0, 4⟩

def c10State : MgrState := ⟨[], [("s9", c10Session)], []⟩

/-- C10 witness: with both the message insert and the session write-back
reporting failure, `add_message` still returns `True` and the cached
session's count goes from 4 to 6. -/
theorem C10_add_message_witness :
    get_session c10State "s9" = some c10Session ∧
    (add_message c10State ⟨false, false, true⟩ "s9" "hello" "world" 7).1 =
      true ∧
    lookupA (add_message c10State ⟨false, false, true⟩ "s9" "hello" "world"
        7).2.active_sessions "s9" =
      some { c10Session with
              message_count := c10Session.message_count + 2,
              last_activity := 7 } :=
  ⟨rfl,
   ((C10_add_message_swallows_failures c10State ⟨false, false, true⟩ "s9"
       "hello" "world" 7).1 c10Session rfl).1,
   ((C10_add_message_swallows_failures c10State ⟨false, false, true⟩ "s9"
       "hello" "world" 7).1 c10Session rfl).2⟩

/-- C5: for every message missing both short-circuits, the additive score
is clamped to at most 1, the level is determined from the score by the
stated thresholds (`DATA` versus `L3` decided by the data keywords), and
`requires_reasoning` holds iff the level is `L3` or `DATA`. -/
theorem C5_complexity_level_mapping (message context : String)
    (historyLen : Nat)
    (hl0 : l0Match (lowerS message) = false)
    (hack : shortAck message = false) :
    (get_detailed_analysis message context historyLen).score ≤ 1 ∧
    ((get_detailed_analysis message context historyLen).score ≤ 15/100 →
      (get_detailed_analysis message context historyLen).level = .L0) ∧
    (15/100 < (get_detailed_analysis message context historyLen).score ∧
        (get_detailed_analysis message context historyLen).score ≤ 4/10 →
      (get_detailed_analysis message context historyLen).level = .L1) ∧
    (4/10 < (get_detailed_analysis message context historyLen).score ∧
        (get_detailed_analysis message context historyLen).score ≤ 65/100 →
      (get_detailed_analysis message context historyLen).level = .L2) ∧
    (65/100 < (get_detailed_analysis message context historyLen).score →
      (dataFoundOf message context ≠ [] →
        (get_detailed_analysis message context historyLen).level = .DATA) ∧
      (dataFoundOf message context = [] →
        (get_detailed_analysis message context historyLen).level = .L3)) ∧
    ((get_detailed_analysis message context historyLen).requires_reasoning =
        true ↔
      ((get_detailed_analysis message context historyLen).level = .L3 ∨
       (get_detailed_analysis message context historyLen).level = .DATA)) := by
  simp only [get_detailed_analysis, hl0, hack, Bool.false_eq_true, if_false]
  split_ifs with h1 h2 h3 h4
  · exact ⟨min_le_left _ _, fun _ => rfl,
      fun hc => absurd h1 (not_le.mpr hc.1),
      fun hc => absurd h1 (not_le.mpr (by linarith [hc.1])),
      fun hc => absurd h1 (not_le.mpr (by linarith)),
      by simp⟩
  · exact ⟨min_le_left _ _, fun hc => absurd hc (by exact h1),
      fun _ => rfl,
      fun hc => absurd h2 (not_le.mpr hc.1),
      fun hc => absurd h2 (not_le.mpr (by linarith)),
      by simp⟩
  · exact ⟨min_le_left _ _, fun hc => absurd hc (by exact h1),
      fun hc => absurd hc.2 (by exact fun hx => h2 hx),
      fun _ => rfl,
      fun hc => absurd h3 (not_le.mpr (by linarith)),
      by simp⟩
  · refine ⟨min_le_left _ _, fun hc => absurd hc (by exact h1),
      fun hc => absurd hc.2 (by exact fun hx => h2 hx),
      fun hc => absurd hc.2 (by exact fun hx => h3 hx),
      fun _ => ⟨fun _ => rfl, fun he => absurd he h4⟩,
      by simp⟩
  · refine ⟨min_le_left _ _, fun hc => absurd hc (by exact h1),
      fun hc => absurd hc.2 (by exact fun hx => h2 hx),
      fun hc => absurd hc.2 (by exact fun hx => h3 hx),
      fun _ => ⟨fun hne => absurd hne (by simp [h4]), fun _ => rfl⟩,
      by simp⟩

/-- C5 witness: a strategic-analysis query that skips both short-circuits. -/
theorem C5_complexity_level_witness :
    l0Match (lowerS "please analyze our data trends") = false ∧
    shortAck "please analyze our data trends" = false ∧
    (get_detailed_analysis "please analyze our data trends" "" 0).score ≤ 1 :=
  ⟨by decide, by decide,
   (C5_complexity_level_mapping "please analyze our data trends" "" 0
       (by decide) (by decide)).1⟩

/-- C8: exempt paths are never limited; otherwise, after pruning timestamps
at least 60 seconds old, the request is rejected with HTTP 429 — remaining
header `"0"`, `retry_after` the larger of 1 and the truncated seconds until
the oldest recorded request ages out — iff the remaining count reaches the
configured limit, and no new timestamp is recorded; below the limit the
timestamp is recorded and the request forwarded. -/
theorem C8_rate_limit_window (requests_per_minute : Nat) (recorded : List ℚ)
    (now : ℚ) (path : String) :
    (excluded_paths.contains path = true →
      dispatch requests_per_minute recorded now path = (.exempt, recorded)) ∧
    (excluded_paths.contains path = false →
      (requests_per_minute ≤
          (recorded.filter (fun t => now - t < 60)).length →
        dispatch requests_per_minute recorded now path =
          (.limited
            (max 1 (pyInt (60 - (now -
              (listMinQ (recorded.filter (fun t => now - t < 60))).getD now))))
            (toString requests_per_minute) "0"
            (toString (pyInt (now +
              ((max 1 (pyInt (60 - (now -
                (listMinQ (recorded.filter (fun t => now - t < 60))).getD
                  now))) : ℤ) : ℚ))))
            (toString
              (max 1 (pyInt (60 - (now -
                (listMinQ (recorded.filter (fun t => now - t < 60))).getD
                  now))))),
           recorded.filter (fun t => now - t < 60))) ∧
      ((recorded.filter (fun t => now - t < 60)).length <
          requests_per_minute →
        dispatch requests_per_minute recorded now path =
          (.forwarded (toString requests_per_minute)
            (toString (max 0 ((requests_per_minute : ℤ) -
              ((recorded.filter (fun t => now - t < 60)) ++ [now]).length)))
            (toString (pyInt
              ((listMinQ ((recorded.filter (fun t => now - t < 60)) ++
                  [now])).getD now + 60))),
           (recorded.filter (fun t => now - t < 60)) ++ [now]))) := by
  constructor
  · intro h
    unfold dispatch
    rw [if_pos h]
  · intro h
    have hne : ¬(excluded_paths.contains path = true) := by
      rw [h]; exact Bool.false_ne_true
    constructor
    · intro hge
      unfold dispatch
      rw [if_neg hne, if_pos hge]
    · intro hlt
      unfold dispatch
      rw [if_neg hne, if_neg (not_le.mpr hlt)]

/-- C8 witness: limit 1, one fresh recorded timestamp, a second request 5
seconds later on a non-exempt path is limited with remaining header "0"
and `retry_after` 55, recording nothing new. -/
theorem C8_rate_limit_witness :
    excluded_paths.contains "/api/v1/chat" = false ∧
    1 ≤ (([0] : List ℚ).filter (fun t => (5 : ℚ) - t < 60)).length ∧
    dispatch 1 [0] 5 "/api/v1/chat" =
      (.limited
        (max 1 (pyInt (60 - ((5 : ℚ) -
          (listMinQ (([0] : List ℚ).filter
            (fun t => (5 : ℚ) - t < 60))).getD 5))))
        (toString (1 : Nat)) "0"
        (toString (pyInt ((5 : ℚ) +
          ((max 1 (pyInt (60 - ((5 : ℚ) -
            (listMinQ (([0] : List ℚ).filter
              (fun t => (5 : ℚ) - t < 60))).getD 5))) : ℤ) : ℚ))))
        (toString
          (max 1 (pyInt (60 - ((5 : ℚ) -
            (listMinQ (([0] : List ℚ).filter
              (fun t => (5 : ℚ) - t < 60))).getD 5))))),
       ([0] : List ℚ).filter (fun t => (5 : ℚ) - t < 60)) := by
  have hfil : (([0] : List ℚ).filter (fun t => (5 : ℚ) - t < 60)) =
      ([0] : List ℚ) := by
    simp only [List.filter_cons, List.filter_nil, decide_eq_true_eq]
    norm_num
  refine ⟨by decide, by rw [hfil]; decide, ?_⟩
  exact ((C8_rate_limit_window 1 [0] 5 "/api/v1/chat").2 (by decide)).1
    (by rw [hfil]; decide)

/-- Rounding an integer rational leaves it unchanged. -/
theorem roundHalfEven_intCast (n : ℤ) : roundHalfEven (n : ℚ) = n := by
  simp only [roundHalfEven, Int.floor_intCast, sub_self]
  rw [if_pos (by norm_num : (0 : ℚ) < 1/2)]

theorem growthLabel_30 : growthLabel (3/10) = "30%" := by
  unfold growthLabel
  rw [show ((3 : ℚ)/10 * 100) = ((30 : ℤ) : ℚ) by norm_num,
    roundHalfEven_intCast]
  decide

/-- C9: `generate_financial_projection(100000, 0.3, 3)` yields exactly the
three claimed rows: expenses are 70% of revenue, profit the difference,
EBITDA 1.2 × profit, revenue compounds by 1.3, the growth label is "-" in
year 1 and "30%" afterwards (the IEEE-754 doubles the code computes agree
with these exact rationals after the 2-decimal rounding). -/
theorem C9_financial_projection :
    generate_financial_projection 100000 (3/10) 3 =
      [⟨"Year 1", 100000, 70000, 30000, 36000, "-"⟩,
       ⟨"Year 2", 130000, 91000, 39000, 46800, "30%"⟩,
       ⟨"Year 3", 169000, 118300, 50700, 60840, "30%"⟩] := by
  unfold generate_financial_projection
  norm_num [finRowsAux, round2, roundHalfEven, growthLabel_30]
  decide

/-- Keys of a parsed JSON object. -/
def objKeys : JValue → Option (List String)
  | .jobj fields => some (fields.map (fun f => f.1))
  | _ => none

/-- A four-key SWOT object embedded in prose that never mentions "swot". -/
def c3Text : String :=
  "Here is my take.\n\x7b\"strengths\": 1, \"weaknesses\": 2, \"opportunities\": 3, \"threats\": 4\x7d"

/-- The JSON line of `c3Text` on its own. -/
def c3Json : String :=
  "\x7b\"strengths\": 1, \"weaknesses\": 2, \"opportunities\": 3, \"threats\": 4\x7d"

/-- C3 counterexample: the embedded blob is a JSON object with exactly the
four SWOT keys, yet `process_ai_response` classifies the surrounding text
as `TEXT` (the SWOT branch of `detect_data_type` requires the literal
substring "swot") and attaches no structured data at all — the
brace-balanced fallback is never reached. -/
theorem C3_counterexample :
    ((jsonLoads c3Json).map allFourKeysIn) = some (some true) ∧
    ((jsonLoads c3Json).bind objKeys) = some four_swot_keys ∧
    detect_data_type c3Text = DataType.TEXT ∧
    (process_ai_response c3Text).structured_data.isNone = true ∧
    taggedSwot (process_ai_response c3Text) = false := by
  exact ⟨by decide, by decide, by decide, by decide, by decide⟩

/-- When `parse_json_data` succeeds and the parsed value contains the four
SWOT keys, the result is tagged `SWOT`. -/
theorem parse_json_data_fourKeys (text : String) (p : ParsedJson)
    (hp : parse_json_data text = some p)
    (hkeys : allFourKeysIn p.pdata = some true) :
    p.ptype = DataType.SWOT := by
  unfold parse_json_data at hp
  rcases hjs : extractJsonStr text with _ | js
  · rw [hjs] at hp
    exact absurd hp (by simp)
  · rw [hjs] at hp
    dsimp only at hp
    rcases hld : jsonLoads js with _ | v
    · rw [hld] at hp
      exact absurd hp (by simp)
    · rw [hld] at hp
      dsimp only at hp
      unfold classifyParsed at hp
      rcases hak : allFourKeysIn v with _ | b
      · rw [hak] at hp
        exact absurd hp (by simp)
      · cases b
        · rw [hak] at hp
          cases hp
          simp_all
        · rw [hak] at hp
          cases hp
          rfl

/-- C3 amended: whenever `detect_data_type` classifies the text as `SWOT`
or `JSON` (for a prose-embedded object this requires the literal substring
"swot" somewhere in the text) and `parse_json_data` succeeds — for
embedded objects via the brace-balanced extraction fallback — on a value
containing the four SWOT keys, `process_ai_response` attaches non-empty
structured data tagged `SWOT`. -/
theorem C3_swot_detection_amended (text : String)
    (hdet : detect_data_type text = DataType.SWOT ∨
      detect_data_type text = DataType.JSON)
    (hsome : (parse_json_data text).isSome = true)
    (hkeys : (parse_json_data text).map (fun p => allFourKeysIn p.pdata) =
      some (some true)) :
    (process_ai_response text).structured_data.isSome = true ∧
    taggedSwot (process_ai_response text) = true := by
  obtain ⟨p, hp⟩ := Option.isSome_iff_exists.mp hsome
  rw [hp] at hkeys
  have hk : allFourKeysIn p.pdata = some true := by simpa using hkeys
  have hsw := parse_json_data_fourKeys text p hp hk
  rcases hdet with h | h <;>
    simp [process_ai_response, taggedSwot, h, hp, hsw]

/-- A SWOT blob with the keys out of order, extra whitespace and a
multi-line brace-balanced block, embedded after prose containing "SWOT". -/
def c3WitnessText : String :=
  "Our SWOT view:\n\x7b \"threats\": [\"t\"],\n\"strengths\": [\"s\"], \"opportunities\": [], \"weaknesses\": \"w\" \x7d"

/-- C3 witness: the amended claim at a prose-embedded, reordered,
whitespace-padded SWOT object, parsed through the brace-balanced fallback. -/
theorem C3_swot_detection_witness :
    detect_data_type c3WitnessText = DataType.SWOT ∧
    (process_ai_response c3WitnessText).structured_data.isSome = true ∧
    taggedSwot (process_ai_response c3WitnessText) = true :=
  ⟨by decide,
   (C3_swot_detection_amended c3WitnessText (Or.inl (by decide)) (by decide)
       (by decide)).1,
   (C3_swot_detection_amended c3WitnessText (Or.inl (by decide)) (by decide)
       (by decide)).2⟩

/-! ### C7: reciprocal rank fusion -/

theorem addScore_fresh (acc : List ScoreEntry) (k : String × String)
    (it : RagItem) (sc : ℚ) (h : ∀ e ∈ acc, e.key ≠ k) :
    addScore acc k it sc = acc ++ [⟨k, it, sc⟩] := by
  have hfalse : (acc.any fun e => e.key = k) = false := by
    rw [List.any_eq_false]
    intro e he
    simpa using h e he
  unfold addScore
  rw [hfalse]
  simp

/-- Folding the score accumulator over an enumerated list whose keys are
fresh for the accumulator and mutually distinct appends one entry per item,
scored by its 0-based rank. -/
theorem foldl_addScore_fresh (h : String → String) (c : Nat)
    (l : List RagItem) :
    ∀ (n : Nat) (acc : List ScoreEntry),
      (∀ it ∈ l, ∀ e ∈ acc, e.key ≠ itemKey h it) →
      (l.map (itemKey h)).Nodup →
      (List.enumFrom n l).foldl
          (fun acc2 p => addScore acc2 (itemKey h p.2) p.2 (1 / (p.1 + c : ℚ)))
          acc =
        acc ++ (List.enumFrom n l).map
          (fun p => ⟨itemKey h p.2, p.2, 1 / (p.1 + c : ℚ)⟩) := by
  induction l with
  | nil => intro n acc _ _; simp
  | cons it t ih =>
    intro n acc hfresh hnd
    have hnd2 : (t.map (itemKey h)).Nodup := by
      simp only [List.map_cons, List.nodup_cons] at hnd
      exact hnd.2
    have hkey : itemKey h it ∉ t.map (itemKey h) := by
      simp only [List.map_cons, List.nodup_cons] at hnd
      exact hnd.1
    simp only [List.enumFrom, List.foldl_cons, List.map_cons]
    rw [addScore_fresh acc (itemKey h it) it _
      (fun e he => hfresh it (List.mem_cons_self it t) e he)]
    rw [ih (n + 1) _ ?_ hnd2]
    · simp
    · intro it2 hit2 e he
      rcases List.mem_append.mp he with h1 | h2
      · exact hfresh it2 (List.mem_cons_of_mem it hit2) e h1
      · have he2 : e = ⟨itemKey h it, it, 1 / (n + c : ℚ)⟩ := by
          simpa using h2
        rw [he2]
        show itemKey h it ≠ itemKey h it2
        intro hcontra
        exact hkey (hcontra ▸ List.mem_map_of_mem (itemKey h) hit2)

/-- The payload of an `enum` member is a member of the list. -/
theorem mem_of_enum_snd {α : Type} {p : ℕ × α} {l : List α}
    (hp : p ∈ l.enum) : p.2 ∈ l := by
  obtain ⟨hb, hg⟩ := List.getElem?_eq_some.mp
    (List.mem_enum_iff_getElem?.mp hp)
  exact hg ▸ List.getElem_mem hb

/-- A member of `enum` is the list's entry at its recorded rank. -/
theorem enum_get_of_mem {α : Type} {p : ℕ × α} {l : List α}
    (hp : p ∈ l.enum) : ∃ hb : p.1 < l.length, l.get ⟨p.1, hb⟩ = p.2 := by
  obtain ⟨hb, hg⟩ := List.getElem?_eq_some.mp
    (List.mem_enum_iff_getElem?.mp hp)
  exact ⟨hb, by rw [List.get_eq_getElem]; exact hg⟩

/-- With pairwise distinct keys, the `scores` dict of
`_reciprocal_rank_fusion` over two ranked lists is exactly one entry per
item, in first-encounter order, scored `1 / (rank + c)`. -/
theorem buildScores_pair (h : String → String) (L1 L2 : List RagItem)
    (c : Nat) (hnd : ((L1 ++ L2).map (itemKey h)).Nodup) :
    buildScores h [L1, L2] c =
      L1.enum.map (fun p => ⟨itemKey h p.2, p.2, 1 / (p.1 + c : ℚ)⟩) ++
      L2.enum.map (fun p => ⟨itemKey h p.2, p.2, 1 / (p.1 + c : ℚ)⟩) := by
  have hnd12 : (L1.map (itemKey h)).Nodup ∧ (L2.map (itemKey h)).Nodup ∧
      (L1.map (itemKey h)).Disjoint (L2.map (itemKey h)) := by
    rw [List.map_append] at hnd
    exact List.nodup_append.mp hnd
  unfold buildScores
  simp only [List.foldl_cons, List.foldl_nil]
  unfold List.enum
  rw [foldl_addScore_fresh h c L1 0 []
    (by intro it _ e he; simp at he) hnd12.1]
  simp only [List.nil_append]
  rw [foldl_addScore_fresh h c L2 0 _ ?_ hnd12.2.1]
  intro it hit e he
  obtain ⟨p, hp, hpe⟩ := List.mem_map.mp he
  have hp2 : p.2 ∈ L1 := mem_of_enum_snd hp
  have hkey1 : e.key = itemKey h p.2 := by rw [← hpe]
  rw [hkey1]
  intro hceq
  exact hnd12.2.2 (List.mem_map_of_mem (itemKey h) hp2)
    (hceq ▸ List.mem_map_of_mem (itemKey h) hit)

/-- An entry of the scores table whose item sits at rank `i` of the first
list carries score `1 / (i + c)`. -/
theorem table_score_L1 (h : String → String) (L1 L2 : List RagItem)
    (c : Nat) (hnd : ((L1 ++ L2).map (itemKey h)).Nodup) (e : ScoreEntry)
    (he : e ∈ buildScores h [L1, L2] c) (i : Fin L1.length)
    (hei : e.item = L1.get i) : e.score = 1 / ((i.val : ℚ) + c) := by
  have hnodup : (L1 ++ L2).Nodup := List.Nodup.of_map (itemKey h) hnd
  have hnd1 : L1.Nodup := (List.nodup_append.mp hnodup).1
  have hdisj : L1.Disjoint L2 := (List.nodup_append.mp hnodup).2.2
  rw [buildScores_pair h L1 L2 c hnd] at he
  rcases List.mem_append.mp he with h1e | h2e
  · obtain ⟨p, hp, hpe⟩ := List.mem_map.mp h1e
    obtain ⟨hlt, hgeteq⟩ := enum_get_of_mem hp
    have hitem : e.item = p.2 := by rw [← hpe]
    have hgets : L1.get ⟨p.1, hlt⟩ = L1.get i := by
      rw [hgeteq, ← hitem, hei]
    have hfin : (⟨p.1, hlt⟩ : Fin L1.length) = i :=
      (List.Nodup.get_inj_iff hnd1).mp hgets
    have hval : p.1 = i.val := congrArg Fin.val hfin
    have hscore : e.score = 1 / (p.1 + c : ℚ) := by rw [← hpe]
    rw [hscore, hval]
  · exfalso
    obtain ⟨p, hp, hpe⟩ := List.mem_map.mp h2e
    have hp2 : p.2 ∈ L2 := mem_of_enum_snd hp
    have hitem : e.item = p.2 := by rw [← hpe]
    have hmem1 : e.item ∈ L1 := by
      rw [hei]
      exact List.get_mem L1 i.val i.2
    exact hdisj hmem1 (by rw [hitem]; exact hp2)

/-- An entry of the scores table whose item sits at rank `i` of the second
list carries score `1 / (i + c)`. -/
theorem table_score_L2 (h : String → String) (L1 L2 : List RagItem)
    (c : Nat) (hnd : ((L1 ++ L2).map (itemKey h)).Nodup) (e : ScoreEntry)
    (he : e ∈ buildScores h [L1, L2] c) (i : Fin L2.length)
    (hei : e.item = L2.get i) : e.score = 1 / ((i.val : ℚ) + c) := by
  have hnodup : (L1 ++ L2).Nodup := List.Nodup.of_map (itemKey h) hnd
  have hnd2 : L2.Nodup := (List.nodup_append.mp hnodup).2.1
  have hdisj : L1.Disjoint L2 := (List.nodup_append.mp hnodup).2.2
  rw [buildScores_pair h L1 L2 c hnd] at he
  rcases List.mem_append.mp he with h1e | h2e
  · exfalso
    obtain ⟨p, hp, hpe⟩ := List.mem_map.mp h1e
    have hp2 : p.2 ∈ L1 := mem_of_enum_snd hp
    have hitem : e.item = p.2 := by rw [← hpe]
    exact hdisj (hitem ▸ hp2) (hei ▸ List.get_mem L2 i.val i.2)
  · obtain ⟨p, hp, hpe⟩ := List.mem_map.mp h2e
    obtain ⟨hlt, hgeteq⟩ := enum_get_of_mem hp
    have hitem : e.item = p.2 := by rw [← hpe]
    have hgets : L2.get ⟨p.1, hlt⟩ = L2.get i := by
      rw [hgeteq, ← hitem, hei]
    have hfin : (⟨p.1, hlt⟩ : Fin L2.length) = i :=
      (List.Nodup.get_inj_iff hnd2).mp hgets
    have hval : p.1 = i.val := congrArg Fin.val hfin
    have hscore : e.score = 1 / (p.1 + c : ℚ) := by rw [← hpe]
    rw [hscore, hval]

/-- In the stable-descending sort (plus `take`), a strictly larger score
sits strictly earlier. -/
theorem sorted_take_lt (table : List ScoreEntry) (k : Nat)
    (p q : Fin ((List.insertionSort rrfRel table).take k).length)
    (hpq : (((List.insertionSort rrfRel table).take k).get q).score <
      (((List.insertionSort rrfRel table).take k).get p).score) : p < q := by
  by_contra hnpq
  rcases (not_lt.mp hnpq).lt_or_eq with hlt | heq
  · have hst : ((List.insertionSort rrfRel table).take k).Sorted rrfRel :=
      List.Pairwise.sublist (List.take_sublist k _)
        (List.sorted_insertionSort rrfRel table)
    exact absurd hpq (not_lt.mpr (hst.rel_get_of_lt hlt))
  · rw [heq] at hpq
    exact lt_irrefl _ hpq

/-- Entries of the truncated sort come from the scores table. -/
theorem take_sort_mem_table (table : List ScoreEntry) (k : Nat)
    (r : Fin ((List.insertionSort rrfRel table).take k).length) :
    ((List.insertionSort rrfRel table).take k).get r ∈ table := by
  have h1 := List.get_mem ((List.insertionSort rrfRel table).take k) r.val r.2
  exact (List.perm_insertionSort rrfRel table).subset
    (List.take_subset k _ h1)

/-- Fusion preserves the internal order of the first ranked list. -/
theorem rrf_order_L1 (h : String → String) (L1 L2 : List RagItem) (k : Nat)
    (hnd : ((L1 ++ L2).map (itemKey h)).Nodup) (p q : Nat)
    (hp : p < (reciprocal_rank_fusion h [L1, L2] k 60).length)
    (hq : q < (reciprocal_rank_fusion h [L1, L2] k 60).length)
    (i j : Fin L1.length)
    (hpi : (reciprocal_rank_fusion h [L1, L2] k 60).get ⟨p, hp⟩ = L1.get i)
    (hqj : (reciprocal_rank_fusion h [L1, L2] k 60).get ⟨q, hq⟩ = L1.get j)
    (hij : i < j) : p < q := by
  unfold reciprocal_rank_fusion at hp hq hpi hqj
  have hp2 : p < ((List.insertionSort rrfRel
      (buildScores h [L1, L2] 60)).take k).length := by
    simpa using hp
  have hq2 : q < ((List.insertionSort rrfRel
      (buildScores h [L1, L2] 60)).take k).length := by
    simpa using hq
  have hpi2 : (((List.insertionSort rrfRel
      (buildScores h [L1, L2] 60)).take k).get ⟨p, hp2⟩).item = L1.get i := by
    rw [← hpi, List.get_eq_getElem, List.get_eq_getElem, List.getElem_map]
  have hqj2 : (((List.insertionSort rrfRel
      (buildScores h [L1, L2] 60)).take k).get ⟨q, hq2⟩).item = L1.get j := by
    rw [← hqj, List.get_eq_getElem, List.get_eq_getElem, List.getElem_map]
  have hsp := table_score_L1 h L1 L2 60 hnd _
    (take_sort_mem_table _ k ⟨p, hp2⟩) i hpi2
  have hsq := table_score_L1 h L1 L2 60 hnd _
    (take_sort_mem_table _ k ⟨q, hq2⟩) j hqj2
  have hscore : (((List.insertionSort rrfRel
      (buildScores h [L1, L2] 60)).take k).get ⟨q, hq2⟩).score <
      (((List.insertionSort rrfRel
        (buildScores h [L1, L2] 60)).take k).get ⟨p, hp2⟩).score := by
    rw [hsp, hsq]
    apply one_div_lt_one_div_of_lt
    · positivity
    · have hvv : (i.val : ℚ) < (j.val : ℚ) := by exact_mod_cast hij
      linarith
  exact sorted_take_lt _ k ⟨p, hp2⟩ ⟨q, hq2⟩ hscore

/-- Fusion preserves the internal order of the second ranked list. -/
theorem rrf_order_L2 (h : String → String) (L1 L2 : List RagItem) (k : Nat)
    (hnd : ((L1 ++ L2).map (itemKey h)).Nodup) (p q : Nat)
    (hp : p < (reciprocal_rank_fusion h [L1, L2] k 60).length)
    (hq : q < (reciprocal_rank_fusion h [L1, L2] k 60).length)
    (i j : Fin L2.length)
    (hpi : (reciprocal_rank_fusion h [L1, L2] k 60).get ⟨p, hp⟩ = L2.get i)
    (hqj : (reciprocal_rank_fusion h [L1, L2] k 60).get ⟨q, hq⟩ = L2.get j)
    (hij : i < j) : p < q := by
  unfold reciprocal_rank_fusion at hp hq hpi hqj
  have hp2 : p < ((List.insertionSort rrfRel
      (buildScores h [L1, L2] 60)).take k).length := by
    simpa using hp
  have hq2 : q < ((List.insertionSort rrfRel
      (buildScores h [L1, L2] 60)).take k).length := by
    simpa using hq
  have hpi2 : (((List.insertionSort rrfRel
      (buildScores h [L1, L2] 60)).take k).get ⟨p, hp2⟩).item = L2.get i := by
    rw [← hpi, List.get_eq_getElem, List.get_eq_getElem, List.getElem_map]
  have hqj2 : (((List.insertionSort rrfRel
      (buildScores h [L1, L2] 60)).take k).get ⟨q, hq2⟩).item = L2.get j := by
    rw [← hqj, List.get_eq_getElem, List.get_eq_getElem, List.getElem_map]
  have hsp := table_score_L2 h L1 L2 60 hnd _
    (take_sort_mem_table _ k ⟨p, hp2⟩) i hpi2
  have hsq := table_score_L2 h L1 L2 60 hnd _
    (take_sort_mem_table _ k ⟨q, hq2⟩) j hqj2
  have hscore : (((List.insertionSort rrfRel
      (buildScores h [L1, L2] 60)).take k).get ⟨q, hq2⟩).score <
      (((List.insertionSort rrfRel
        (buildScores h [L1, L2] 60)).take k).get ⟨p, hp2⟩).score := by
    rw [hsp, hsq]
    apply one_div_lt_one_div_of_lt
    · positivity
    · have hvv : (i.val : ℚ) < (j.val : ℚ) := by exact_mod_cast hij
      linarith
  exact sorted_take_lt _ k ⟨p, hp2⟩ ⟨q, hq2⟩ hscore

/-- The concrete items of the pinned fusion example: `A,B,C` from the
global list, `X,Y` from the tenant list, pairwise distinct ids. -/
def itemA : RagItem := ⟨some "A", none, "", some "global"⟩
def itemB : RagItem := ⟨some "B", none, "", some "global"⟩
def itemC : RagItem := ⟨some "C", none, "", some "global"⟩
def itemX : RagItem := ⟨some "X", none, "", some "tenant"⟩
def itemY : RagItem := ⟨some "Y", none, "", some "tenant"⟩

/-- C7: with pairwise-distinct keys, `_reciprocal_rank_fusion` scores every
item `1/(rank+60)` by its 0-based rank in its own list (the scores-table
equality), preserves each input list's internal order among its own items
in the returned top-`k`, and — being a pure function of its input — is
deterministic, with the `A`-versus-`X` tie (both `1/60`) broken for the
first list, as the pinned `[A,B,C] ⊕ [X,Y] = [A,X,B,Y,C]` run shows. -/
theorem C7_reciprocal_rank_fusion :
    (∀ (h : String → String) (L1 L2 : List RagItem),
      ((L1 ++ L2).map (itemKey h)).Nodup →
      (∀ c : Nat,
        buildScores h [L1, L2] c =
          L1.enum.map (fun p => ⟨itemKey h p.2, p.2, 1 / (p.1 + c : ℚ)⟩) ++
          L2.enum.map (fun p => ⟨itemKey h p.2, p.2, 1 / (p.1 + c : ℚ)⟩)) ∧
      (∀ (k p q : Nat)
        (hp : p < (reciprocal_rank_fusion h [L1, L2] k 60).length)
        (hq : q < (reciprocal_rank_fusion h [L1, L2] k 60).length)
        (i j : Fin L1.length),
        (reciprocal_rank_fusion h [L1, L2] k 60).get ⟨p, hp⟩ = L1.get i →
        (reciprocal_rank_fusion h [L1, L2] k 60).get ⟨q, hq⟩ = L1.get j →
        i < j → p < q) ∧
      (∀ (k p q : Nat)
        (hp : p < (reciprocal_rank_fusion h [L1, L2] k 60).length)
        (hq : q < (reciprocal_rank_fusion h [L1, L2] k 60).length)
        (i j : Fin L2.length),
        (reciprocal_rank_fusion h [L1, L2] k 60).get ⟨p, hp⟩ = L2.get i →
        (reciprocal_rank_fusion h [L1, L2] k 60).get ⟨q, hq⟩ = L2.get j →
        i < j → p < q)) ∧
    reciprocal_rank_fusion (fun _ => "") [[itemA, itemB, itemC],
        [itemX, itemY]] 10 60 = [itemA, itemX, itemB, itemY, itemC] := by
  constructor
  · intro h L1 L2 hnd
    exact ⟨fun c => buildScores_pair h L1 L2 c hnd,
      fun k p q hp hq i j hpi hqj hij =>
        rrf_order_L1 h L1 L2 k hnd p q hp hq i j hpi hqj hij,
      fun k p q hp hq i j hpi hqj hij =>
        rrf_order_L2 h L1 L2 k hnd p q hp hq i j hpi hqj hij⟩
  · norm_num [reciprocal_rank_fusion, buildScores, addScore, itemKey,
      truthyOpt, itemA, itemB, itemC, itemX, itemY, List.insertionSort,
      List.orderedInsert, rrfRel]

/-- C7 witness: the scores-table equality at the pinned concrete lists. -/
theorem C7_reciprocal_rank_fusion_witness :
    (([itemA, itemB, itemC] ++ [itemX, itemY]).map
      (itemKey (fun _ => ""))).Nodup ∧
    buildScores (fun _ => "") [[itemA, itemB, itemC], [itemX, itemY]] 60 =
      [itemA, itemB, itemC].enum.map
        (fun p => ⟨itemKey (fun _ => "") p.2, p.2,
          1 / (p.1 + (60 : Nat) : ℚ)⟩) ++
      [itemX, itemY].enum.map
        (fun p => ⟨itemKey (fun _ => "") p.2, p.2,
          1 / (p.1 + (60 : Nat) : ℚ)⟩) :=
  ⟨by decide,
   ((C7_reciprocal_rank_fusion.1 (fun _ => "") [itemA, itemB, itemC]
       [itemX, itemY] (by decide)).1 60)⟩

end Valtric
